import Mathlib

/-!
Verification of the storage-adapter layer of the flow-commerce-nexus
repository: a shallow embedding in Lean 4 of the data-access adapters
(in-memory mock, browser-local persisted, external wrapper), the
application-level cascade delete, the composite read, and the two
connection managers, together with theorems settling the specified
contract properties.

Records are modelled as flat association lists from string keys to a
small JavaScript-like value type: this captures field access on plain
JS objects (absent keys read as undefined), the spread-merge idiom
used by the adapters, and strict equality comparison.
-/

/-- JavaScript-like primitive value stored in a record field. -/
inductive Val : Type
  | str (s : String)
  | num (n : Int)
  | null
  | undefined
deriving DecidableEq, Repr

/-- JS truthiness of a value, as used by conditions such as
`document.id || generated` and `if (id)`. -/
def Val.truthy : Val → Bool
  | .str s => s ≠ ""
  | .num n => n ≠ 0
  | .null => false
  | .undefined => false

/-- Model of the JS expression `v?.toString()`: stringify a value,
propagating null/undefined to undefined via optional chaining. -/
def Val.optToString : Val → Val
  | .str s => .str s
  | .num n => .str (toString n)
  | .null => .undefined
  | .undefined => .undefined

/-- A record (JS plain object): a flat association list of fields.
Objects built by the source always have pairwise-distinct keys. -/
abbrev Doc := List (String × Val)

/-- First binding of a key, if any (JS own-property lookup). -/
def getField : Doc → String → Option Val
  | [], _ => none
  | (k', v) :: t, k => if k' = k then some v else getField t k

/-- JS property read `obj[k]`: an absent key reads as undefined. -/
def jsGet (d : Doc) (k : String) : Val :=
  (getField d k).getD Val.undefined

/-- Whether the record has a binding for the key. -/
def hasField (d : Doc) (k : String) : Bool :=
  (getField d k).isSome

/-- JS property assignment `obj[k] = v`: overwrite the existing binding
in place, or append a new binding at the end. -/
def setField : Doc → String → Val → Doc
  | [], k, v => [(k, v)]
  | (k', v') :: t, k, v => if k' = k then (k', v) :: t else (k', v') :: setField t k v

/-- JS `delete obj[k]` / object destructuring that drops the key. -/
def removeField (d : Doc) (k : String) : Doc :=
  d.filter (fun kv => kv.1 ≠ k)

/-- The JS spread merge `{...a, ...b}`: fields of `b` assigned over `a`
in order. -/
def mergeDoc (a b : Doc) : Doc :=
  b.foldl (fun acc kv => setField acc kv.1 kv.2) a

/-- Query matching used by the in-memory adapter:
`Object.keys(query).every(key => item[key] === query[key])`. -/
def matchesQuery (q : Doc) (item : Doc) : Bool :=
  q.all (fun kv => jsGet item kv.1 == kv.2)

namespace MongoDBCollection

/-!
Value-level embedding of the in-memory adapter `MongoDBCollection`
from `src/services/mockMongoDB.ts`. The collection is the backing
array of records; the simulated latency and console logging of the
source are presentation-only and are dropped. The random id generator
is passed in as the explicit argument `gen`.
-/

/-- `find(query)`: all records whose fields match every key of the
query; an empty query returns the whole collection. -/
def find (coll : List Doc) (q : Doc) : List Doc :=
  if q.isEmpty then coll else coll.filter (fun item => matchesQuery q item)

/-- `findOne(query)`: first record matching the query. -/
def findOne (coll : List Doc) (q : Doc) : Option Doc :=
  coll.find? (fun item => matchesQuery q item)

/-- `collection.find(item => item.id === v)` generalized over the
compared value, as used by `findById` and by `getOrderWithDetails`
for the customer lookup. -/
def findByIdVal (coll : List Doc) (v : Val) : Option Doc :=
  coll.find? (fun item => jsGet item "id" == v)

/-- `findById(id)`: first record whose `id` field strictly equals the
given string. -/
def findById (coll : List Doc) (id : String) : Option Doc :=
  findByIdVal coll (Val.str id)

/-- `insertOne(document)`: keep a truthy provided id verbatim, else use
the generated one; push the new record and return it. No uniqueness
check is performed. -/
def insertOne (coll : List Doc) (d : Doc) (gen : String) : Doc × List Doc :=
  let idVal := if (jsGet d "id").truthy then jsGet d "id" else Val.str gen
  let newDoc := setField d "id" idVal
  (newDoc, coll ++ [newDoc])

/-- `updateOne(filter, update)`: spread-merge the update over the first
matching record (`{...old, ...update}`), or return null when nothing
matches. -/
def updateOne (coll : List Doc) (filter update : Doc) : Option Doc × List Doc :=
  match coll.findIdx? (fun item => matchesQuery filter item) with
  | none => (none, coll)
  | some i =>
    let nd := mergeDoc (coll.getD i []) update
    (some nd, coll.set i nd)

/-- `count(query)`: number of matching records. -/
def count (coll : List Doc) (q : Doc) : Nat :=
  (find coll q).length

end MongoDBCollection

/-- In-memory plus persisted view of one browser collection: `storage`
is the in-memory array, `slot` the content of the localStorage slot
for the collection (none when nothing was ever persisted). -/
structure BrowserState where
  storage : List Doc
  slot : Option (List Doc)
deriving DecidableEq, Repr

namespace BrowserMongoCollection

/-!
Embedding of the local-persisted adapter `BrowserMongoCollection`
from the browser MongoDB service file. Records are stored under the
backend-native key `_id`; the public `id` is stripped on write and
restored on read. `localStorage.setItem` is modelled by the `slot`
field of `BrowserState`; a serialization/quota failure is modelled by
the boolean `canPersist` being false, in which case `setItem` throws
and the slot keeps its previous content.
-/

/-- `toStorageDocument`: drop `id`; keep a truthy id as `_id`,
otherwise keep an existing truthy `_id`, otherwise generate one. -/
def toStorageDocument (d : Doc) (gen : String) : Doc :=
  let rest := removeField d "id"
  if (jsGet d "id").truthy then setField rest "_id" (jsGet d "id")
  else if (jsGet rest "_id").truthy then rest
  else setField rest "_id" (Val.str gen)

/-- `toAppDocument`: drop `_id` and expose it as the public `id`
(`{ id: _id?.toString(), ...rest }` — rest fields are spread after
the id binding). -/
def toAppDocument (d : Doc) : Doc :=
  mergeDoc [("id", (jsGet d "_id").optToString)] (removeField d "_id")

/-- `saveToLocalStorage`: persist the whole array; any failure is
caught and logged, leaving both the slot and memory untouched. -/
def saveToLocalStorage (canPersist : Bool) (st : BrowserState) : BrowserState :=
  if canPersist then { st with slot := some st.storage } else st

/-- Query matching of the browser `find`: keys with undefined values
are skipped, the key `id` is compared against `_id?.toString()`,
other keys by strict equality. -/
def browserMatches (q : Doc) (item : Doc) : Bool :=
  q.all (fun kv =>
    if kv.2 == Val.undefined then true
    else if kv.1 == "id" then (jsGet item "_id").optToString == kv.2
    else jsGet item kv.1 == kv.2)

/-- `find(query)`: filter storage, converting each hit to an app
document (a fresh object per hit). -/
def find (storage : List Doc) (q : Doc) : List Doc :=
  (storage.filter (fun item => browserMatches q item)).map toAppDocument

/-- `findOne(query)`: first result of `find`. -/
def findOne (storage : List Doc) (q : Doc) : Option Doc :=
  (find storage q).head?

/-- `findById(id)`: first stored record with `_id === id`, converted. -/
def findById (storage : List Doc) (id : String) : Option Doc :=
  (storage.find? (fun item => jsGet item "_id" == Val.str id)).map toAppDocument

/-- `insertOne(document)`: convert, push, persist, return the app view.
The outer try/catch rethrows errors raised inside the method body, but
the persistence failure is already swallowed inside
`saveToLocalStorage`, so the result is always a success. -/
def insertOne (canPersist : Bool) (st : BrowserState) (d : Doc) (gen : String) :
    Except String Doc × BrowserState :=
  let newDoc := toStorageDocument d gen
  let st1 : BrowserState := ⟨st.storage ++ [newDoc], st.slot⟩
  (Except.ok (toAppDocument newDoc), saveToLocalStorage canPersist st1)

/-- Field loop of the browser `updateOne`: assign every update field
onto the stored record except the keys `id` and `_id`. -/
def applyUpdate (old p : Doc) : Doc :=
  p.foldl (fun acc kv =>
    if kv.1 == "id" || kv.1 == "_id" then acc else setField acc kv.1 kv.2) old

/-- `updateOne({id}, update)`: locate by `_id`, apply the field loop,
persist, and return the updated app view; null when not found. -/
def updateOne (canPersist : Bool) (st : BrowserState) (fid : String) (p : Doc) :
    Except String (Option Doc) × BrowserState :=
  match st.storage.findIdx? (fun item => jsGet item "_id" == Val.str fid) with
  | none => (Except.ok none, st)
  | some i =>
    let nd := applyUpdate (st.storage.getD i []) p
    let st1 : BrowserState := ⟨st.storage.set i nd, st.slot⟩
    (Except.ok (some (toAppDocument nd)), saveToLocalStorage canPersist st1)

end BrowserMongoCollection

namespace RealMongoCollection

/-!
Error-propagation policy of the wrapper `MongoDBCollection` in
`src/services/realMongoDB.ts`. Each method delegates to the active
backend inside a try/catch; the argument of each function below is the
outcome of that underlying backend call, and the result is what the
wrapper hands to its caller: read paths degrade to an empty/absent/zero
success, write paths rethrow.
-/

/-- `find`: on backend failure, catch and return an empty array. -/
def find (u : Except String (List Doc)) : Except String (List Doc) :=
  match u with
  | .ok xs => .ok xs
  | .error _ => .ok []

/-- `findOne`: on backend failure, catch and return null. -/
def findOne (u : Except String (Option Doc)) : Except String (Option Doc) :=
  match u with
  | .ok r => .ok r
  | .error _ => .ok none

/-- `findById`: on backend failure, catch and return null. -/
def findById (u : Except String (Option Doc)) : Except String (Option Doc) :=
  match u with
  | .ok r => .ok r
  | .error _ => .ok none

/-- `count`: on backend failure, catch and return zero. -/
def count (u : Except String Nat) : Except String Nat :=
  match u with
  | .ok n => .ok n
  | .error _ => .ok 0

/-- `insertOne`: the catch block rethrows the backend failure. -/
def insertOne (u : Except String Doc) : Except String Doc :=
  match u with
  | .ok d => .ok d
  | .error e => .error e

/-- `updateOne`: the catch block rethrows the backend failure. -/
def updateOne (u : Except String (Option Doc)) : Except String (Option Doc) :=
  match u with
  | .ok r => .ok r
  | .error e => .error e

/-- `deleteOne`: the catch block rethrows the backend failure. -/
def deleteOne (u : Except String (Option Doc)) : Except String (Option Doc) :=
  match u with
  | .ok r => .ok r
  | .error e => .error e

end RealMongoCollection

/-- The shared mutable database of `src/services/mockData.ts`: one
backing array per entity collection. The same arrays back the
in-memory adapter registry of `mockMongoDB.ts`. -/
structure DB where
  products : List Doc
  customers : List Doc
  orders : List Doc
  orderItems : List Doc
  payments : List Doc
  warehouses : List Doc
  expenses : List Doc
deriving DecidableEq, Repr

/-- `findIndex` followed by `splice(index, 1)`: drop the first element
satisfying the predicate, if any. -/
def removeFirstBy (p : Doc → Bool) : List Doc → List Doc
  | [] => []
  | d :: t => if p d then t else d :: removeFirstBy p t

/-- `deleteOrder(id)` from `src/services/mockData.ts`: splice out the
first order with the given id, then for each order item referencing it
(collected up front) splice out the first item with a matching item id;
reject when no order has the id. -/
def deleteOrder (db : DB) (oid : String) : Except String Doc × DB :=
  match db.orders.find? (fun o => jsGet o "id" == Val.str oid) with
  | none => (Except.error "Order not found", db)
  | some deleted =>
    let orders1 := removeFirstBy (fun o => jsGet o "id" == Val.str oid) db.orders
    let itemsToRemove := db.orderItems.filter (fun it => jsGet it "order_id" == Val.str oid)
    let items1 := itemsToRemove.foldl
      (fun acc it => removeFirstBy (fun x => jsGet x "id" == jsGet it "id") acc)
      db.orderItems
    (Except.ok deleted, { db with orders := orders1, orderItems := items1 })

/-- Result shape of the composite read: the order fields plus the
three joined components (`{...order, items, payment, customer}`). -/
structure OrderDetails where
  order : Doc
  items : List Doc
  payment : Option Doc
  customer : Option Doc
deriving DecidableEq, Repr

/-- `mockMongoDB.getOrderWithDetails(orderId)`: null when the order is
absent; otherwise the order together with its items, the first payment
referencing it, and the customer looked up by the order customer_id. -/
def getOrderWithDetails (db : DB) (orderId : String) : Option OrderDetails :=
  match MongoDBCollection.findById db.orders orderId with
  | none => none
  | some o =>
    some { order := o
         , items := MongoDBCollection.find db.orderItems [("order_id", Val.str orderId)]
         , payment := MongoDBCollection.findOne db.payments [("order_id", Val.str orderId)]
         , customer := MongoDBCollection.findByIdVal db.customers (jsGet o "customer_id") }

/-!
Reference-level model of the in-memory adapter, used to analyse object
identity: JS objects live on a heap of addresses, arrays hold
references, and the spread operator copies one level only. The
collection is a list of addresses into the heap.
-/

/-- A heap of JS objects: an allocation counter and an address-indexed
store. -/
structure Heap where
  next : Nat
  mem : List (Nat × Doc)
deriving DecidableEq, Repr

/-- Read the object at an address (unallocated addresses read as the
empty object; never exercised by the theorems). -/
def Heap.get (h : Heap) (a : Nat) : Doc :=
  ((h.mem.find? (fun p => p.1 == a)).map Prod.snd).getD []

/-- Overwrite the object at an address. -/
def Heap.set (h : Heap) (a : Nat) (d : Doc) : Heap :=
  ⟨h.next, h.mem.map (fun p => if p.1 == a then (a, d) else p)⟩

/-- Allocate a fresh object with the given content. -/
def Heap.alloc (h : Heap) (d : Doc) : Nat × Heap :=
  (h.next, ⟨h.next + 1, (h.next, d) :: h.mem⟩)

namespace MongoDBCollectionRef

/-- In-memory `find` at the reference level: `[...this.collection]`
and `[...results]` build a fresh array holding the same element
references, so the returned list contains the stored addresses. -/
def find (h : Heap) (coll : List Nat) (q : Doc) : List Nat × Heap :=
  if q.isEmpty then (coll, h)
  else (coll.filter (fun a => matchesQuery q (h.get a)), h)

/-- In-memory `findById` at the reference level: locate the stored
record, then return a freshly allocated shallow copy (`{...result}`). -/
def findById (h : Heap) (coll : List Nat) (id : String) : Option Nat × Heap :=
  match coll.find? (fun a => jsGet (h.get a) "id" == Val.str id) with
  | none => (none, h)
  | some a =>
    let r := h.alloc (h.get a)
    (some r.1, r.2)

end MongoDBCollectionRef

/-- Lifecycle states of the connection managers. -/
inductive ConnStatus : Type
  | disconnected
  | connecting
  | connected
  | error
deriving DecidableEq, Repr

/-- Connection configuration of the relational backend. -/
structure PostgresConfig where
  host : String
  port : Nat
  database : String
  user : String
  password : String
  ssl : Bool
deriving DecidableEq, Repr

/-- Observable state of the `DatabaseConnection` singleton of
`src/utils/databaseConnection.ts`: status, stored config, last error. -/
structure DatabaseConnectionState where
  status : ConnStatus
  config : Option PostgresConfig
  lastError : Option String
deriving DecidableEq, Repr

namespace DatabaseConnection

/-- `connect(config)`: store the config and enter `connecting` before
attempting backend initialization (`initRes` is its outcome); on
success become `connected` and clear the error, on failure become
`error` and store the cause. Returns the boolean result. -/
def connect (cfg : PostgresConfig) (initRes : Except String Unit)
    (st : DatabaseConnectionState) : Bool × DatabaseConnectionState :=
  let st1 : DatabaseConnectionState := { st with status := .connecting, config := some cfg }
  match initRes with
  | .ok _ => (true, { st1 with status := .connected, lastError := none })
  | .error e => (false, { st1 with status := .error, lastError := some e })

/-- `disconnect()`: a successful no-op unless `connected`; from
`connected`, close the pool (`closeRes` is its outcome) and become
`disconnected`, or on close failure record the error, return false and
stay `connected`. -/
def disconnect (closeRes : Except String Unit)
    (st : DatabaseConnectionState) : Bool × DatabaseConnectionState :=
  if st.status ≠ .connected then (true, st)
  else
    match closeRes with
    | .ok _ => (true, { st with status := .disconnected })
    | .error e => (false, { st with lastError := some e })

/-- `reset()`: force `disconnected` and clear config and error. -/
def reset (_ : DatabaseConnectionState) : DatabaseConnectionState :=
  ⟨.disconnected, none, none⟩

end DatabaseConnection

/-- Connection configuration of the document-store backend. -/
structure MongoDBConfig where
  uri : String
  dbName : String
deriving DecidableEq, Repr

/-- Observable state of the `MongoDBConnection` singleton of
`src/utils/mongodbConnection.ts`; `hasClient` models `_client` being
non-null. -/
structure MongoDBConnectionState where
  status : ConnStatus
  config : Option MongoDBConfig
  lastError : Option String
  hasClient : Bool
deriving DecidableEq, Repr

namespace MongoDBConnection

/-- `connect(config)`: store the config and enter `connecting`, then
attempt the driver connection (`initRes` its outcome; the client object
is assigned before the awaited connect call, so it is non-null on
either outcome). -/
def connect (cfg : MongoDBConfig) (initRes : Except String Unit)
    (_st : MongoDBConnectionState) : Bool × MongoDBConnectionState :=
  match initRes with
  | .ok _ => (true, ⟨.connected, some cfg, none, true⟩)
  | .error e => (false, ⟨.error, some cfg, some e, true⟩)

/-- `disconnect()`: a successful no-op unless `connected` with a
client; otherwise close the client and clear it. -/
def disconnect (closeRes : Except String Unit)
    (st : MongoDBConnectionState) : Bool × MongoDBConnectionState :=
  if st.status ≠ .connected || !st.hasClient then (true, st)
  else
    match closeRes with
    | .ok _ => (true, ⟨.disconnected, st.config, st.lastError, false⟩)
    | .error e => (false, { st with lastError := some e })

/-- `reset()`: run `disconnect` (fire-and-forget; in the browser branch
its body completes synchronously), then force `disconnected` and clear
config and error. -/
def reset (closeRes : Except String Unit)
    (st : MongoDBConnectionState) : MongoDBConnectionState :=
  let st1 := (disconnect closeRes st).2
  ⟨.disconnected, none, none, st1.hasClient⟩

end MongoDBConnection

/-!
Helper lemmas about the document operations.
-/

theorem getField_setField (a : Doc) (k k2 : String) (v : Val) :
    getField (setField a k v) k2 = if k = k2 then some v else getField a k2 := by
  induction a with
  | nil => simp [setField, getField]
  | cons kv t ih =>
    obtain ⟨k1, w⟩ := kv
    by_cases h1 : k1 = k
    · subst h1
      by_cases h2 : k1 = k2 <;> simp [setField, getField, h2]
    · by_cases h2 : k1 = k2
      · subst h2
        have h3 : ¬ k = k1 := fun hh => h1 hh.symm
        simp [setField, getField, h1, h3]
      · simp [setField, getField, h1, h2, ih]

theorem getField_eq_none_iff (a : Doc) (k : String) :
    getField a k = none ↔ ∀ kv ∈ a, kv.1 ≠ k := by
  induction a with
  | nil => simp [getField]
  | cons kv t ih =>
    obtain ⟨k1, w⟩ := kv
    by_cases h1 : k1 = k <;> simp [getField, h1, ih]

theorem getField_eq_none_of_not_mem (a : Doc) (k : String)
    (h : k ∉ a.map Prod.fst) : getField a k = none := by
  rw [getField_eq_none_iff]
  intro kv hkv hk
  exact h (List.mem_map.mpr ⟨kv, hkv, hk⟩)

theorem setField_of_getField_none (a : Doc) (k : String) (v : Val)
    (h : getField a k = none) : setField a k v = a ++ [(k, v)] := by
  induction a with
  | nil => rfl
  | cons kv t ih =>
    obtain ⟨k1, w⟩ := kv
    by_cases h1 : k1 = k
    · simp [getField, h1] at h
    · simp [getField, h1] at h
      simp [setField, h1, ih h]

theorem removeField_of_getField_none (a : Doc) (k : String)
    (h : getField a k = none) : removeField a k = a := by
  rw [getField_eq_none_iff] at h
  rw [removeField, List.filter_eq_self]
  intro kv hkv
  simpa using h kv hkv

theorem mergeDoc_cons (a : Doc) (kv : String × Val) (t : Doc) :
    mergeDoc a (kv :: t) = mergeDoc (setField a kv.1 kv.2) t := rfl

theorem getField_mergeDoc_of_none :
    ∀ (p a : Doc) (k : String), getField p k = none →
      getField (mergeDoc a p) k = getField a k := by
  intro p
  induction p with
  | nil => intro a k _; rfl
  | cons kv t ih =>
    intro a k hk
    obtain ⟨k1, w⟩ := kv
    by_cases h1 : k1 = k
    · simp [getField, h1] at hk
    · simp [getField, h1] at hk
      rw [mergeDoc_cons, ih _ k hk, getField_setField]
      simp [h1]

theorem getField_mergeDoc_of_some :
    ∀ (p a : Doc) (k : String) (v : Val), (p.map Prod.fst).Nodup →
      getField p k = some v → getField (mergeDoc a p) k = some v := by
  intro p
  induction p with
  | nil => intro a k v _ hk; simp [getField] at hk
  | cons kv t ih =>
    intro a k v hnd hk
    obtain ⟨k1, w⟩ := kv
    rw [List.map_cons, List.nodup_cons] at hnd
    by_cases h1 : k1 = k
    · subst h1
      simp [getField] at hk
      subst hk
      have ht : getField t k1 = none := getField_eq_none_of_not_mem _ _ hnd.1
      rw [mergeDoc_cons, getField_mergeDoc_of_none _ _ _ ht, getField_setField]
      simp
    · simp [getField, h1] at hk
      rw [mergeDoc_cons]
      exact ih _ k v hnd.2 hk

theorem mergeDoc_eq_append :
    ∀ (b a : Doc), (∀ kv ∈ b, getField a kv.1 = none) →
      (b.map Prod.fst).Nodup → mergeDoc a b = a ++ b := by
  intro b
  induction b with
  | nil => intro a _ _; simp [mergeDoc]
  | cons kv t ih =>
    intro a hdisj hnd
    rw [List.map_cons, List.nodup_cons] at hnd
    rw [mergeDoc_cons, setField_of_getField_none _ _ _ (hdisj kv (by simp))]
    rw [ih (a ++ [kv]) ?_ hnd.2]
    · simp
    · intro kv2 hkv2
      rw [getField_eq_none_iff]
      intro kv3 hkv3
      rcases List.mem_append.mp hkv3 with h3 | h3
      · have := (getField_eq_none_iff a kv2.1).mp (hdisj kv2 (by simp [hkv2])) kv3 h3
        exact this
      · simp at h3
        subst h3
        intro hk
        exact hnd.1 (List.mem_map.mpr ⟨kv2, hkv2, hk.symm⟩)

theorem find?_append_of_none {p : Doc → Bool} :
    ∀ (l1 l2 : List Doc), (∀ x ∈ l1, p x = false) →
      (l1 ++ l2).find? p = l2.find? p := by
  intro l1
  induction l1 with
  | nil => intro l2 _; rfl
  | cons x t ih =>
    intro l2 h
    rw [List.cons_append, List.find?_cons_of_neg _ (by simp [h x (by simp)])]
    exact ih l2 (fun y hy => h y (by simp [hy]))

theorem findIdx?_eq_none_of_forall {p : Doc → Bool} :
    ∀ l : List Doc, (∀ d ∈ l, p d = false) → l.findIdx? p = none := by
  intro l
  induction l with
  | nil => intro _; rfl
  | cons x t ih =>
    intro h
    rw [List.findIdx?_cons]
    simp [h x (by simp), ih (fun y hy => h y (by simp [hy]))]

theorem applyUpdate_cons (a : Doc) (kv : String × Val) (t : Doc) :
    BrowserMongoCollection.applyUpdate a (kv :: t) =
      BrowserMongoCollection.applyUpdate
        (if kv.1 == "id" || kv.1 == "_id" then a else setField a kv.1 kv.2) t := rfl

theorem getField_applyUpdate_protected :
    ∀ (p a : Doc) (k : String), (k = "id" ∨ k = "_id") →
      getField (BrowserMongoCollection.applyUpdate a p) k = getField a k := by
  intro p
  induction p with
  | nil => intro a k _; rfl
  | cons kv t ih =>
    intro a k hk
    rw [applyUpdate_cons]
    by_cases h : (kv.1 == "id" || kv.1 == "_id") = true
    · rw [if_pos h]; exact ih a k hk
    · rw [if_neg h, ih _ k hk, getField_setField]
      have hne : kv.1 ≠ k := by
        rcases hk with h1 | h1 <;> subst h1 <;> simp at h <;> simp [h.1, h.2]
      simp [hne]

theorem getField_applyUpdate_of_none :
    ∀ (p a : Doc) (k : String), getField p k = none →
      getField (BrowserMongoCollection.applyUpdate a p) k = getField a k := by
  intro p
  induction p with
  | nil => intro a k _; rfl
  | cons kv t ih =>
    intro a k hk
    obtain ⟨k1, w⟩ := kv
    by_cases h1 : k1 = k
    · simp [getField, h1] at hk
    · simp [getField, h1] at hk
      rw [applyUpdate_cons]
      by_cases h : (k1 == "id" || k1 == "_id") = true
      · simp only [if_pos h]
        exact ih a k hk
      · simp only [if_neg h]
        rw [ih _ k hk, getField_setField]
        simp [h1]

theorem getField_applyUpdate_of_some :
    ∀ (p a : Doc) (k : String) (v : Val), (p.map Prod.fst).Nodup →
      k ≠ "id" → k ≠ "_id" → getField p k = some v →
      getField (BrowserMongoCollection.applyUpdate a p) k = some v := by
  intro p
  induction p with
  | nil => intro a k v _ _ _ hk; simp [getField] at hk
  | cons kv t ih =>
    intro a k v hnd hid hmid hk
    obtain ⟨k1, w⟩ := kv
    rw [List.map_cons, List.nodup_cons] at hnd
    by_cases h1 : k1 = k
    · subst h1
      simp [getField] at hk
      subst hk
      have ht : getField t k1 = none := getField_eq_none_of_not_mem _ _ hnd.1
      rw [applyUpdate_cons]
      have h : (k1 == "id" || k1 == "_id") = false := by simp [hid, hmid]
      simp only [h, Bool.false_eq_true, if_false]
      rw [getField_applyUpdate_of_none _ _ _ ht, getField_setField]
      simp
    · simp [getField, h1] at hk
      rw [applyUpdate_cons]
      by_cases h : (k1 == "id" || k1 == "_id") = true
      · simp only [if_pos h]
        exact ih a k v hnd.2 hid hmid hk
      · simp only [if_neg h]
        exact ih _ k v hnd.2 hid hmid hk

theorem removeFirstBy_eq_filter (f : Doc → Val) (v : Val) :
    ∀ l : List Doc, (l.map f).Nodup →
      removeFirstBy (fun d => f d == v) l = l.filter (fun d => !(f d == v)) := by
  intro l
  induction l with
  | nil => intro _; rfl
  | cons x t ih =>
    intro hnd
    rw [List.map_cons, List.nodup_cons] at hnd
    by_cases hx : (f x == v) = true
    · have hv : f x = v := by exact eq_of_beq hx
      rw [removeFirstBy, if_pos hx, List.filter_cons]
      simp only [hx, Bool.not_true, Bool.false_eq_true, if_false]
      rw [List.filter_eq_self.mpr]
      intro d hd
      have : f d ≠ f x := fun he => hnd.1 (he ▸ List.mem_map.mpr ⟨d, hd, rfl⟩)
      simp [hv ▸ this]
    · rw [removeFirstBy, if_neg hx, List.filter_cons]
      simp only [hx, Bool.not_false, if_pos]
      rw [ih hnd.2]

theorem foldl_removeFirstBy (f : Doc → Val) :
    ∀ (ts l : List Doc), (l.map f).Nodup →
      ts.foldl (fun acc x => removeFirstBy (fun d => f d == f x) acc) l
        = l.filter (fun d => ts.all (fun x => !(f d == f x))) := by
  intro ts
  induction ts with
  | nil =>
    intro l _
    simp
  | cons x ts ih =>
    intro l hnd
    rw [List.foldl_cons, removeFirstBy_eq_filter f (f x) l hnd]
    have hnd2 : ((l.filter (fun d => !(f d == f x))).map f).Nodup :=
      hnd.sublist (List.Sublist.map f (List.filter_sublist l))
    rw [ih _ hnd2, List.filter_filter]
    apply List.filter_congr
    intro d _
    rw [List.all_cons, Bool.and_comm]

theorem matchesQuery_singleton (k : String) (v : Val) (d : Doc) :
    matchesQuery [(k, v)] d = (jsGet d k == v) := by
  simp [matchesQuery]

/-!
Claim theorems.
-/

/-- Concrete store for the find-aliasing analysis of the in-memory
adapter: one product record living at heap address 0, with the
collection array holding that reference. -/
def c1Doc : Doc := [("id", Val.str "p1"), ("price", Val.num 1)]

/-- Initial heap for the C1 analysis. -/
def c1Heap : Heap := ⟨1, [(0, c1Doc)]⟩

/-- C1: the claim states that every record returned by find, findOne
and findById is an independent copy of the stored record. The in-memory
adapter spreads only the result array, not its elements, so find hands
out the live stored objects: mutating the price of the record returned
by find({}) changes the stored value from 1 to 2 (first conjunct),
whereas findById returns a fresh shallow copy and the same mutation
leaves the stored value at 1 (second conjunct). -/
theorem C1_find_returns_live_stored_records :
    (let r := MongoDBCollectionRef.find c1Heap [0] []
     let a := r.1.headD 999
     let h2 := r.2.set a (setField (r.2.get a) "price" (Val.num 2))
     h2.get 0 = [("id", Val.str "p1"), ("price", Val.num 2)])
    ∧
    (let r := MongoDBCollectionRef.findById c1Heap [0] "p1"
     let a := r.1.getD 999
     let h2 := r.2.set a (setField (r.2.get a) "price" (Val.num 2))
     h2.get 0 = [("id", Val.str "p1"), ("price", Val.num 1)]) := by
  constructor
  · decide
  · decide

/-- Record used by the persistence-failure analysis. -/
def c4Doc : Doc := [("name", Val.str "Widget")]

/-- C4 counterexample: with a failing persistence layer, insertOne on
the local-persisted adapter still answers with a plain success (the
inserted record) — no adapter-level failure reaches the caller — while
the in-memory array gains the record and the storage slot keeps its
stale previous content. -/
theorem C4_counterexample_failure_not_reported :
    (BrowserMongoCollection.insertOne false ⟨[], some []⟩ c4Doc "g1").1
      = Except.ok [("id", Val.str "g1"), ("name", Val.str "Widget")] ∧
    (BrowserMongoCollection.insertOne false ⟨[], some []⟩ c4Doc "g1").2
      = ⟨[[("name", Val.str "Widget"), ("_id", Val.str "g1")]], some []⟩ := by
  constructor
  · rfl
  · rfl

/-- C4 amended: every persistence failure during insertOne is caught
but silently swallowed (the caller always receives the inserted record
as a success), and the in-memory copy is not corrupted: the mutation
is applied to the in-memory array regardless, and on failure the
persisted slot simply keeps its previous content. -/
theorem C4_persistence_failure_swallowed_memory_authoritative
    (canPersist : Bool) (st : BrowserState) (d : Doc) (gen : String) :
    (BrowserMongoCollection.insertOne canPersist st d gen).1
      = Except.ok (BrowserMongoCollection.toAppDocument
          (BrowserMongoCollection.toStorageDocument d gen)) ∧
    (BrowserMongoCollection.insertOne canPersist st d gen).2.storage
      = st.storage ++ [BrowserMongoCollection.toStorageDocument d gen] ∧
    (BrowserMongoCollection.insertOne canPersist st d gen).2.slot
      = (if canPersist then
           some (st.storage ++ [BrowserMongoCollection.toStorageDocument d gen])
         else st.slot) := by
  refine ⟨rfl, ?_, ?_⟩ <;>
    cases canPersist <;>
      simp [BrowserMongoCollection.insertOne, BrowserMongoCollection.saveToLocalStorage]

/-- C5 counterexample: findOne is neither find nor count, yet on a
backend failure it silently degrades to a null success instead of
propagating the failure. -/
theorem C5_counterexample_findOne_degrades :
    RealMongoCollection.findOne (Except.error "backend unavailable") = Except.ok none := rfl

/-- C5 amended: on backend failure the read operations find, findOne,
findById and count degrade to an empty/absent/zero success, while the
write operations insertOne, updateOne and deleteOne propagate the
failure to the caller. -/
theorem C5_error_propagation_policy (e : String) :
    RealMongoCollection.find (Except.error e) = Except.ok [] ∧
    RealMongoCollection.findOne (Except.error e) = Except.ok none ∧
    RealMongoCollection.findById (Except.error e) = Except.ok none ∧
    RealMongoCollection.count (Except.error e) = Except.ok 0 ∧
    RealMongoCollection.insertOne (Except.error e) = Except.error e ∧
    RealMongoCollection.updateOne (Except.error e) = Except.error e ∧
    RealMongoCollection.deleteOne (Except.error e) = Except.error e :=
  ⟨rfl, rfl, rfl, rfl, rfl, rfl, rfl⟩

/-- Concrete relational config used by the connection analyses. -/
def c8Cfg : PostgresConfig :=
  ⟨"localhost", 5432, "inventory_management", "postgres", "postgres", false⟩

/-- C8 counterexample: from the connected state, when releasing the
backend fails, disconnect returns false and the manager stays
connected (recording the error) — it does not transition to
disconnected as the claim states unconditionally. -/
theorem C8_counterexample_disconnect_failure_stays_connected :
    DatabaseConnection.disconnect (Except.error "close failed")
        ⟨ConnStatus.connected, some c8Cfg, none⟩
      = (false, ⟨ConnStatus.connected, some c8Cfg, some "close failed"⟩) := by
  decide

/-- C8 amended: disconnect in any state other than connected is a
no-op returning success and leaving the whole state unchanged; from
connected it transitions to disconnected when releasing the backend
succeeds, and on a release failure it records the error, returns
failure and stays connected; reset unconditionally forces
disconnected and clears both the stored config and the stored error. -/
theorem C8_disconnect_and_reset_behavior
    (cfg : Option PostgresConfig) (err : Option String) :
    (∀ closeRes, DatabaseConnection.disconnect closeRes ⟨ConnStatus.disconnected, cfg, err⟩
        = (true, ⟨ConnStatus.disconnected, cfg, err⟩)) ∧
    (∀ closeRes, DatabaseConnection.disconnect closeRes ⟨ConnStatus.connecting, cfg, err⟩
        = (true, ⟨ConnStatus.connecting, cfg, err⟩)) ∧
    (∀ closeRes, DatabaseConnection.disconnect closeRes ⟨ConnStatus.error, cfg, err⟩
        = (true, ⟨ConnStatus.error, cfg, err⟩)) ∧
    (DatabaseConnection.disconnect (Except.ok ()) ⟨ConnStatus.connected, cfg, err⟩
        = (true, ⟨ConnStatus.disconnected, cfg, err⟩)) ∧
    (∀ e, DatabaseConnection.disconnect (Except.error e) ⟨ConnStatus.connected, cfg, err⟩
        = (false, ⟨ConnStatus.connected, cfg, some e⟩)) ∧
    (∀ st, DatabaseConnection.reset st = ⟨ConnStatus.disconnected, none, none⟩) := by
  refine ⟨?_, ?_, ?_, ?_, ?_, ?_⟩ <;>
    first
      | (intro x; simp [DatabaseConnection.disconnect, DatabaseConnection.reset])
      | simp [DatabaseConnection.disconnect]

/-- C9: when the inserted document carries a non-empty string id, the
in-memory insertOne stores and returns that id verbatim, appends the
record without any uniqueness check, and the number of stored records
carrying that id grows by one — inserting a duplicate id therefore
yields two records with the same id. -/
theorem C9_insertOne_keeps_provided_id_without_uniqueness_check
    (coll : List Doc) (d : Doc) (gen s : String)
    (hid : getField d "id" = some (Val.str s)) (hs : s ≠ "") :
    jsGet (MongoDBCollection.insertOne coll d gen).1 "id" = Val.str s ∧
    (MongoDBCollection.insertOne coll d gen).2
      = coll ++ [(MongoDBCollection.insertOne coll d gen).1] ∧
    ((MongoDBCollection.insertOne coll d gen).2.filter
        (fun x => jsGet x "id" == Val.str s)).length
      = (coll.filter (fun x => jsGet x "id" == Val.str s)).length + 1 := by
  have hjs : (getField d "id").getD Val.undefined = Val.str s := by rw [hid]; rfl
  have htr : (Val.str s).truthy = true := by simp [Val.truthy, hs]
  refine ⟨?_, rfl, ?_⟩
  · simp [MongoDBCollection.insertOne, jsGet, hjs, htr, getField_setField]
  · simp [MongoDBCollection.insertOne, List.filter_append, jsGet, hjs, htr, getField_setField]

/-- Collection and document exhibiting the duplicate-id behavior. -/
def c9Coll : List Doc := [[("id", Val.str "a"), ("name", Val.str "first")]]

/-- Duplicate-id document inserted by the C9 witness. -/
def c9Dup : Doc := [("id", Val.str "a"), ("name", Val.str "second")]

/-- C9 witness: inserting a document whose id equals the id of an
already stored record leaves two stored records with id a. -/
theorem C9_witness :
    jsGet (MongoDBCollection.insertOne c9Coll c9Dup "zzz").1 "id" = Val.str "a" ∧
    ((MongoDBCollection.insertOne c9Coll c9Dup "zzz").2.filter
        (fun x => jsGet x "id" == Val.str "a")).length
      = (c9Coll.filter (fun x => jsGet x "id" == Val.str "a")).length + 1 := by
  have h := C9_insertOne_keeps_provided_id_without_uniqueness_check c9Coll c9Dup "zzz" "a"
    (by decide) (by decide)
  exact ⟨h.1, h.2.2⟩

/-- Concrete document-store config used by the C10 analysis. -/
def c10Cfg : MongoDBConfig := ⟨"mongodb://localhost:27017", "inventory_management"⟩

/-- C10: connect stores the configuration before attempting backend
initialization, so after a failed connect the status is error, the
last-error field holds the cause, and the config getter still returns
the configuration of the failed attempt; a later disconnect is a no-op
from that state and clears nothing, while reset clears both. Both the
relational and the document-store connection managers behave this
way. -/
theorem C10_failed_connect_keeps_config_until_reset
    (cfg : PostgresConfig) (mcfg : MongoDBConfig) (e : String)
    (st : DatabaseConnectionState) (mst : MongoDBConnectionState) :
    (DatabaseConnection.connect cfg (Except.error e) st
        = (false, ⟨ConnStatus.error, some cfg, some e⟩)) ∧
    (DatabaseConnection.connect cfg (Except.ok ()) st
        = (true, ⟨ConnStatus.connected, some cfg, none⟩)) ∧
    (∀ closeRes, DatabaseConnection.disconnect closeRes ⟨ConnStatus.error, some cfg, some e⟩
        = (true, ⟨ConnStatus.error, some cfg, some e⟩)) ∧
    (DatabaseConnection.reset ⟨ConnStatus.error, some cfg, some e⟩
        = ⟨ConnStatus.disconnected, none, none⟩) ∧
    (MongoDBConnection.connect mcfg (Except.error e) mst
        = (false, ⟨ConnStatus.error, some mcfg, some e, true⟩)) ∧
    (∀ closeRes, MongoDBConnection.disconnect closeRes ⟨ConnStatus.error, some mcfg, some e, true⟩
        = (true, ⟨ConnStatus.error, some mcfg, some e, true⟩)) ∧
    (∀ closeRes, MongoDBConnection.reset closeRes ⟨ConnStatus.error, some mcfg, some e, true⟩
        = ⟨ConnStatus.disconnected, none, none, true⟩) := by
  refine ⟨rfl, rfl, ?_, rfl, rfl, ?_, ?_⟩ <;>
    (intro x;
     simp [DatabaseConnection.disconnect, MongoDBConnection.disconnect,
       MongoDBConnection.reset])

theorem saveToLocalStorage_storage (cp : Bool) (st : BrowserState) :
    (BrowserMongoCollection.saveToLocalStorage cp st).storage = st.storage := by
  cases cp <;> simp [BrowserMongoCollection.saveToLocalStorage]

/-- Stored collection refuting the id-protection part of C2 on the
in-memory adapter. -/
def c2Coll : List Doc := [[("id", Val.str "a"), ("price", Val.num 1)]]

/-- C2 counterexample: on the in-memory adapter, a patch containing an
id key does alter the stored id — updating the record with id a by the
patch containing id b leaves a stored record whose id is b. -/
theorem C2_counterexample_patch_alters_id :
    MongoDBCollection.updateOne c2Coll [("id", Val.str "a")] [("id", Val.str "b")]
      = (some [("id", Val.str "b"), ("price", Val.num 1)],
         [[("id", Val.str "b"), ("price", Val.num 1)]]) := by
  decide

/-- C2 amended: for both executable adapters updateOne addressed by id
shallow-merges the patch into the first matching stored record —
every field present in the patch is set, every other field is left
unchanged — and returns absent when no record has the id; the
local-persisted adapter never alters id or the native key, but the
in-memory adapter spreads the whole patch, so a patch carrying an id
key overwrites the stored id. -/
theorem C2_updateOne_shallow_merge_semantics
    (coll storage : List Doc) (oid : String) (p old : Doc)
    (hp : (p.map Prod.fst).Nodup) :
    ((∀ d ∈ coll, (jsGet d "id" == Val.str oid) = false) →
      MongoDBCollection.updateOne coll [("id", Val.str oid)] p = (none, coll)) ∧
    ((∀ d ∈ storage, (jsGet d "_id" == Val.str oid) = false) →
      ∀ canPersist slot,
        BrowserMongoCollection.updateOne canPersist ⟨storage, slot⟩ oid p
          = (Except.ok none, ⟨storage, slot⟩)) ∧
    (∀ i, coll.findIdx? (fun item => matchesQuery [("id", Val.str oid)] item) = some i →
      MongoDBCollection.updateOne coll [("id", Val.str oid)] p
        = (some (mergeDoc (coll.getD i []) p),
           coll.set i (mergeDoc (coll.getD i []) p))) ∧
    (∀ k v, getField p k = some v → getField (mergeDoc old p) k = some v) ∧
    (∀ k, getField p k = none → getField (mergeDoc old p) k = getField old k) ∧
    (∀ k v, k ≠ "id" → k ≠ "_id" → getField p k = some v →
      getField (BrowserMongoCollection.applyUpdate old p) k = some v) ∧
    (∀ k, getField p k = none →
      getField (BrowserMongoCollection.applyUpdate old p) k = getField old k) ∧
    (getField (BrowserMongoCollection.applyUpdate old p) "id" = getField old "id") ∧
    (getField (BrowserMongoCollection.applyUpdate old p) "_id" = getField old "_id") ∧
    (∀ i canPersist slot,
      storage.findIdx? (fun item => jsGet item "_id" == Val.str oid) = some i →
      BrowserMongoCollection.updateOne canPersist ⟨storage, slot⟩ oid p
        = (Except.ok (some (BrowserMongoCollection.toAppDocument
             (BrowserMongoCollection.applyUpdate (storage.getD i []) p))),
           BrowserMongoCollection.saveToLocalStorage canPersist
             ⟨storage.set i (BrowserMongoCollection.applyUpdate (storage.getD i []) p),
              slot⟩)) := by
  refine ⟨?_, ?_, ?_, ?_, ?_, ?_, ?_, ?_, ?_, ?_⟩
  · intro h
    have hnone : coll.findIdx? (fun item => matchesQuery [("id", Val.str oid)] item) = none := by
      apply findIdx?_eq_none_of_forall
      intro d hd
      rw [matchesQuery_singleton]
      exact h d hd
    simp [MongoDBCollection.updateOne, hnone]
  · intro h canPersist slot
    have hnone : storage.findIdx? (fun item => jsGet item "_id" == Val.str oid) = none :=
      findIdx?_eq_none_of_forall storage h
    simp [BrowserMongoCollection.updateOne, hnone]
  · intro i hi
    simp [MongoDBCollection.updateOne, hi]
  · intro k v hk
    exact getField_mergeDoc_of_some p old k v hp hk
  · intro k hk
    exact getField_mergeDoc_of_none p old k hk
  · intro k v h1 h2 hk
    exact getField_applyUpdate_of_some p old k v hp h1 h2 hk
  · intro k hk
    exact getField_applyUpdate_of_none p old k hk
  · exact getField_applyUpdate_protected p old "id" (Or.inl rfl)
  · exact getField_applyUpdate_protected p old "_id" (Or.inr rfl)
  · intro i canPersist slot hi
    simp [BrowserMongoCollection.updateOne, hi]

/-- Stored record for the C2 witness, matching the insert-then-update
scenario of the specification. -/
def c2Old : Doc :=
  [("id", Val.str "p1"), ("name", Val.str "Widget"),
   ("price", Val.num 10), ("stock", Val.num 10)]

/-- Patch for the C2 witness. -/
def c2Patch : Doc := [("stock", Val.num 7)]

/-- C2 witness: patching stock to 7 sets stock and leaves name
unchanged, and the browser field loop keeps the public id intact. -/
theorem C2_witness :
    getField (mergeDoc c2Old c2Patch) "stock" = some (Val.num 7) ∧
    getField (mergeDoc c2Old c2Patch) "name" = some (Val.str "Widget") ∧
    getField (BrowserMongoCollection.applyUpdate c2Old c2Patch) "id"
      = some (Val.str "p1") := by
  have h := C2_updateOne_shallow_merge_semantics [] [] "p1" c2Patch c2Old (by decide)
  refine ⟨h.2.2.2.1 "stock" (Val.num 7) (by decide),
          (h.2.2.2.2.1 "name" (by decide)).trans (by decide),
          (h.2.2.2.2.2.2.2.1).trans (by decide)⟩

/-- C3: on both executable adapters, inserting a well-formed record
that carries no id and then looking it up by the returned id gives
back a record deep-equal to the inserted one modulo the assigned id;
for the local-persisted adapter the id-to-native-key renaming
round-trips exactly. The generated id is assumed fresh for the
collection (the source treats collisions of its random generator as
negligible and does not check them). -/
theorem C3_insert_findById_roundtrip
    (coll storage : List Doc) (r : Doc) (gen : String)
    (hid : getField r "id" = none)
    (hmid : getField r "_id" = none)
    (hnd : (r.map Prod.fst).Nodup)
    (hfresh1 : ∀ d ∈ coll, (jsGet d "id" == Val.str gen) = false)
    (hfresh2 : ∀ d ∈ storage, (jsGet d "_id" == Val.str gen) = false) :
    ((MongoDBCollection.insertOne coll r gen).1 = r ++ [("id", Val.str gen)] ∧
     MongoDBCollection.findById (MongoDBCollection.insertOne coll r gen).2 gen
       = some (r ++ [("id", Val.str gen)]) ∧
     removeField (r ++ [("id", Val.str gen)]) "id" = r) ∧
    (∀ canPersist slot,
      (BrowserMongoCollection.insertOne canPersist ⟨storage, slot⟩ r gen).1
        = Except.ok (("id", Val.str gen) :: r) ∧
      BrowserMongoCollection.findById
          (BrowserMongoCollection.insertOne canPersist ⟨storage, slot⟩ r gen).2.storage gen
        = some (("id", Val.str gen) :: r) ∧
      removeField (("id", Val.str gen) :: r) "id" = r) := by
  have hjid : jsGet r "id" = Val.undefined := by simp [jsGet, hid]
  have hjmid : jsGet r "_id" = Val.undefined := by simp [jsGet, hmid]
  have hrm : removeField r "id" = r := removeField_of_getField_none r "id" hid
  have hsetid : setField r "id" (Val.str gen) = r ++ [("id", Val.str gen)] :=
    setField_of_getField_none r "id" _ hid
  have hsetmid : setField r "_id" (Val.str gen) = r ++ [("_id", Val.str gen)] :=
    setField_of_getField_none r "_id" _ hmid
  have hnew1 : (MongoDBCollection.insertOne coll r gen).1 = r ++ [("id", Val.str gen)] := by
    simp [MongoDBCollection.insertOne, hjid, Val.truthy, hsetid]
  have hgetid : getField (r ++ [("id", Val.str gen)]) "id" = some (Val.str gen) := by
    rw [← hsetid, getField_setField]
    simp
  have hrem1 : removeField (r ++ [("id", Val.str gen)]) "id" = r := by
    rw [removeField, List.filter_append]
    have h1 : List.filter (fun kv => decide (kv.1 ≠ "id")) r = r := hrm
    rw [h1]
    simp
  have hstore : BrowserMongoCollection.toStorageDocument r gen = r ++ [("_id", Val.str gen)] := by
    rw [BrowserMongoCollection.toStorageDocument]
    simp only [hrm, hjid, hjmid, Val.truthy]
    simpa using hsetmid
  have hgetmid : getField (r ++ [("_id", Val.str gen)]) "_id" = some (Val.str gen) := by
    rw [← hsetmid, getField_setField]
    simp
  have hremmid : removeField (r ++ [("_id", Val.str gen)]) "_id" = r := by
    rw [removeField, List.filter_append]
    have h1 : List.filter (fun kv => decide (kv.1 ≠ "_id")) r = r :=
      removeField_of_getField_none r "_id" hmid
    rw [h1]
    simp
  have happ : BrowserMongoCollection.toAppDocument (r ++ [("_id", Val.str gen)])
      = ("id", Val.str gen) :: r := by
    rw [BrowserMongoCollection.toAppDocument, hremmid]
    have h2 : jsGet (r ++ [("_id", Val.str gen)]) "_id" = Val.str gen := by
      simp [jsGet, hgetmid]
    rw [h2]
    have hdisj : ∀ kv ∈ r, getField [("id", Val.str gen)] kv.1 = none := by
      intro kv hkv
      have hne : kv.1 ≠ "id" := (getField_eq_none_iff r "id").mp hid kv hkv
      have hne2 : ¬ "id" = kv.1 := fun h => hne h.symm
      simp [getField, hne2]
    have := mergeDoc_eq_append r [("id", Val.str gen)] hdisj hnd
    simpa [Val.optToString] using this
  refine ⟨⟨hnew1, ?_, hrem1⟩, ?_⟩
  · have h2 : (MongoDBCollection.insertOne coll r gen).2
        = coll ++ [(MongoDBCollection.insertOne coll r gen).1] := rfl
    rw [h2, hnew1, MongoDBCollection.findById, MongoDBCollection.findByIdVal,
      find?_append_of_none coll _ hfresh1]
    rw [List.find?_cons_of_pos]
    simp [jsGet, hgetid]
  · intro canPersist slot
    have hb1 : (BrowserMongoCollection.insertOne canPersist ⟨storage, slot⟩ r gen).1
        = Except.ok (("id", Val.str gen) :: r) := by
      simp [BrowserMongoCollection.insertOne, hstore, happ]
    have hbs : (BrowserMongoCollection.insertOne canPersist ⟨storage, slot⟩ r gen).2.storage
        = storage ++ [r ++ [("_id", Val.str gen)]] := by
      simp [BrowserMongoCollection.insertOne, hstore, saveToLocalStorage_storage]
    refine ⟨hb1, ?_, ?_⟩
    · rw [hbs, BrowserMongoCollection.findById,
        find?_append_of_none storage _ hfresh2]
      rw [List.find?_cons_of_pos]
      · simp [happ]
      · simp [jsGet, hgetmid]
    · have hstep : removeField (("id", Val.str gen) :: r) "id" = removeField r "id" := by
        rw [removeField, removeField, List.filter_cons]
        simp
      rw [hstep, hrm]

/-- Record inserted by the C3 witness. -/
def c3Rec : Doc := [("name", Val.str "Widget"), ("price", Val.num 10)]

/-- C3 witness: the round trip evaluated on a concrete record over
empty collections. -/
theorem C3_witness :
    (MongoDBCollection.insertOne [] c3Rec "g1").1 = c3Rec ++ [("id", Val.str "g1")] ∧
    MongoDBCollection.findById (MongoDBCollection.insertOne [] c3Rec "g1").2 "g1"
      = some (c3Rec ++ [("id", Val.str "g1")]) ∧
    (BrowserMongoCollection.insertOne true ⟨[], none⟩ c3Rec "g1").1
      = Except.ok (("id", Val.str "g1") :: c3Rec) ∧
    BrowserMongoCollection.findById
        (BrowserMongoCollection.insertOne true ⟨[], none⟩ c3Rec "g1").2.storage "g1"
      = some (("id", Val.str "g1") :: c3Rec) := by
  have h := C3_insert_findById_roundtrip [] [] c3Rec "g1" (by decide) (by decide) (by decide)
    (by intro d hd; simp at hd) (by intro d hd; simp at hd)
  exact ⟨h.1.1, h.1.2.1, (h.2 true none).1, (h.2 true none).2.1⟩

/-- C6: assuming the data-model invariant that item ids are unique
within the OrderItems collection, a successful deleteOrder removes
every OrderItem whose order_id is the deleted order id — a subsequent
find on that order_id returns the empty sequence — and no collection
other than orders and orderItems is changed. -/
theorem C6_deleteOrder_cascades_orderItems
    (db : DB) (oid : String) (deleted : Doc) (db2 : DB)
    (hnd : (db.orderItems.map (fun d => jsGet d "id")).Nodup)
    (hdel : deleteOrder db oid = (Except.ok deleted, db2)) :
    MongoDBCollection.find db2.orderItems [("order_id", Val.str oid)] = [] ∧
    db2.products = db.products ∧
    db2.customers = db.customers ∧
    db2.payments = db.payments ∧
    db2.warehouses = db.warehouses ∧
    db2.expenses = db.expenses := by
  rw [deleteOrder] at hdel
  cases hfound : db.orders.find? (fun o => jsGet o "id" == Val.str oid) with
  | none =>
    rw [hfound] at hdel
    exact absurd (congrArg Prod.fst hdel) (by simp)
  | some o =>
    rw [hfound] at hdel
    have hdb2 : db2
        = { db with
            orders := removeFirstBy (fun o => jsGet o "id" == Val.str oid) db.orders,
            orderItems :=
              (db.orderItems.filter (fun it => jsGet it "order_id" == Val.str oid)).foldl
                (fun acc it => removeFirstBy (fun x => jsGet x "id" == jsGet it "id") acc)
                db.orderItems } :=
      (congrArg Prod.snd hdel).symm
    subst hdb2
    refine ⟨?_, rfl, rfl, rfl, rfl, rfl⟩
    have hitems :
        (db.orderItems.filter (fun it => jsGet it "order_id" == Val.str oid)).foldl
            (fun acc it => removeFirstBy (fun x => jsGet x "id" == jsGet it "id") acc)
            db.orderItems
          = db.orderItems.filter (fun d =>
              (db.orderItems.filter (fun it => jsGet it "order_id" == Val.str oid)).all
                (fun x => !(jsGet d "id" == jsGet x "id"))) :=
      foldl_removeFirstBy (fun d => jsGet d "id")
        (db.orderItems.filter (fun it => jsGet it "order_id" == Val.str oid))
        db.orderItems hnd
    rw [MongoDBCollection.find]
    simp only [List.isEmpty, Bool.false_eq_true, if_false]
    rw [List.filter_eq_nil_iff]
    intro d hd
    rw [hitems] at hd
    have hmem := List.mem_filter.mp hd
    rw [matchesQuery_singleton]
    intro hcon
    have hdts : d ∈ db.orderItems.filter (fun it => jsGet it "order_id" == Val.str oid) :=
      List.mem_filter.mpr ⟨hmem.1, hcon⟩
    have hall := (List.all_eq_true.mp hmem.2) d hdts
    simp at hall

/-- Order deleted by the C6 witness. -/
def c6Order : Doc := [("id", Val.str "o1"), ("customer_id", Val.str "c1")]

/-- Database for the C6 witness: one order with two order items, plus
an unrelated product. -/
def c6DB : DB :=
  ⟨[[("id", Val.str "p1"), ("name", Val.str "Widget")]],
   [], [c6Order],
   [[("id", Val.str "i1"), ("order_id", Val.str "o1")],
    [("id", Val.str "i2"), ("order_id", Val.str "o1")]],
   [], [], []⟩

/-- Database state after the C6 witness delete. -/
def c6DB2 : DB :=
  ⟨[[("id", Val.str "p1"), ("name", Val.str "Widget")]],
   [], [], [], [], [], []⟩

/-- C6 witness: deleting the order with two order items empties the
order-item query and leaves the products collection untouched. -/
theorem C6_witness :
    MongoDBCollection.find c6DB2.orderItems [("order_id", Val.str "o1")] = [] ∧
    c6DB2.products = c6DB.products := by
  have h := C6_deleteOrder_cascades_orderItems c6DB "o1" c6Order c6DB2
    (by decide) (by rfl)
  exact ⟨h.1, h.2.1⟩

/-- C7: getOrderWithDetails returns absent when no order has the id;
otherwise it returns the order fields together with exactly the
OrderItems whose order_id is the order id, the first Payment with that
order_id (absent when none), and the first Customer whose id equals
the order customer_id (absent when none). -/
theorem C7_getOrderWithDetails_shape (db : DB) (orderId : String) :
    (MongoDBCollection.findById db.orders orderId = none →
      getOrderWithDetails db orderId = none) ∧
    (∀ o, MongoDBCollection.findById db.orders orderId = some o →
      getOrderWithDetails db orderId
        = some ⟨o,
            db.orderItems.filter (fun it => jsGet it "order_id" == Val.str orderId),
            db.payments.find? (fun p => jsGet p "order_id" == Val.str orderId),
            db.customers.find? (fun c => jsGet c "id" == jsGet o "customer_id")⟩) := by
  constructor
  · intro h
    simp [getOrderWithDetails, h]
  · intro o h
    simp only [getOrderWithDetails, h, MongoDBCollection.find, MongoDBCollection.findOne,
      MongoDBCollection.findByIdVal, matchesQuery_singleton, List.isEmpty,
      Bool.false_eq_true, if_false]

/-- Customer of the C7 witness scenario. -/
def c7Cust : Doc := [("id", Val.str "c1"), ("name", Val.str "Ada")]

/-- Order of the C7 witness scenario. -/
def c7Order : Doc :=
  [("id", Val.str "o1"), ("customer_id", Val.str "c1"), ("status", Val.str "pending")]

/-- Single order item of the C7 witness scenario. -/
def c7Item : Doc := [("id", Val.str "i1"), ("order_id", Val.str "o1"), ("quantity", Val.num 2)]

/-- Completed payment of the C7 witness scenario. -/
def c7Payment : Doc :=
  [("id", Val.str "m1"), ("order_id", Val.str "o1"), ("status", Val.str "completed")]

/-- Database of the C7 witness scenario. -/
def c7DB : DB := ⟨[], [c7Cust], [c7Order], [c7Item], [c7Payment], [], []⟩

/-- C7 witness: on the scenario database the composite read returns
one item, the completed payment, and the customer referenced by the
order. -/
theorem C7_witness :
    getOrderWithDetails c7DB "o1" = some ⟨c7Order, [c7Item], some c7Payment, some c7Cust⟩ ∧
    (getField c7Payment "status" = some (Val.str "completed")) ∧
    (getField c7Cust "id" = getField c7Order "customer_id") := by
  have h := (C7_getOrderWithDetails_shape c7DB "o1").2 c7Order (by decide)
  exact ⟨h.trans (by decide), by decide, by decide⟩
